import Mathlib

/-!
# Verification of the qbootstrapper curve-bootstrapping engine

A shallow embedding of the qbootstrapper Python package (curves.py,
swapscheduler.py, utils.py and the instruments package) together with
proofs about its behaviour.

Modelling conventions:
* Calendar dates are integer day numbers on the numpy `datetime64[D]`
  epoch (day 0 = 1970-01-01, a Thursday).  Python's
  `datetime.weekday()` (Monday = 0) is `weekday` below.
* Curve timestamps (`time.mktime`) are modelled by the real cast of the
  day number, a strictly monotone re-parameterisation of seconds.
* IEEE floats are modelled by real numbers; `np.log`/`np.exp` by
  `Real.log`/`Real.exp`.
* Fallible operations return `Except String`/`Option`; a diverging
  computation (unbounded recursion in the source) is modelled by `none`.
-/

set_option maxHeartbeats 1600000
set_option linter.unusedVariables false

namespace QB

/-- Python's `datetime.weekday()` for a numpy day number
(day 0 = 1970-01-01 is a Thursday, weekday 3; Monday = 0). -/
def weekday (d : ℤ) : ℤ := (d + 3) % 7

/-- `np.arange(s, e, one_day)`: the days `s, s+1, …, e-1`. -/
def arangeDays (s e : ℤ) : List ℤ := (List.range (e - s).toNat).map (fun i => s + i)

/-- Every `k`-th element of a list starting with the head
(the stride part of a Python slice `a[i::k]`). -/
def everyNth : List α → ℕ → List α
  | [], _ => []
  | a :: t, k => a :: everyNth (t.drop (k - 1)) k
  termination_by l _ => l.length
  decreasing_by
    simp only [List.length_cons, List.length_drop]
    omega

/-- Normalisation of a (possibly negative) Python slice start index. -/
def pySliceStart (n : ℕ) (s : ℤ) : ℕ := (if s < 0 then max (n + s) 0 else s).toNat

/-- Python/numpy basic slice `a[s::k]` with step `k > 0`; a negative
start counts from the end of the array. -/
def pySlice (l : List α) (s : ℤ) (k : ℕ) : List α :=
  everyNth (l.drop (pySliceStart l.length s)) k

/-- numpy slice assignment `a[s::k] = rhs`: each slice position whose
rank is below `rhs.length` receives the corresponding element of `rhs`,
all other entries are unchanged. -/
def pySliceAssign (l : List α) (s : ℤ) (k : ℕ) (rhs : List α) : List α :=
  let i0 : ℤ := pySliceStart l.length s
  l.mapIdx fun i a =>
    if i0 ≤ (i : ℤ) ∧ ((i : ℤ) - i0) % k = 0 ∧ ((i : ℤ) - i0) / k < rhs.length
    then rhs.getD (((i : ℤ) - i0) / k).toNat a else a

/-- `np.sign` on reals. -/
noncomputable def npSign (x : ℝ) : ℝ := if x < 0 then -1 else if x = 0 then 0 else 1

namespace Pchip

/-!
Embedding of `scipy.interpolate.PchipInterpolator`: the x/y data, the
PCHIP derivative estimates (`_find_derivatives` with `_edge_case`), and
piecewise cubic-Hermite evaluation (`PPoly.__call__`).
-/

/-- The `j`-th knot abscissa (junk `0` out of range). -/
noncomputable def xval (pts : List (ℝ × ℝ)) (j : ℕ) : ℝ := ((pts.map Prod.fst).getD j 0)

/-- The `j`-th knot ordinate (junk `0` out of range). -/
noncomputable def yval (pts : List (ℝ × ℝ)) (j : ℕ) : ℝ := ((pts.map Prod.snd).getD j 0)

/-- Interval width `hk[j] = x[j+1] - x[j]`. -/
noncomputable def hk (pts : List (ℝ × ℝ)) (j : ℕ) : ℝ := xval pts (j + 1) - xval pts j

/-- Secant slope `mk[j] = (y[j+1] - y[j]) / hk[j]`. -/
noncomputable def slope (pts : List (ℝ × ℝ)) (j : ℕ) : ℝ :=
  (yval pts (j + 1) - yval pts j) / hk pts j

/-- scipy's `PchipInterpolator._edge_case`: one-sided three-point
derivative estimate with monotonicity clamping. -/
noncomputable def edgeDeriv (h0 h1 m0 m1 : ℝ) : ℝ :=
  let d := ((2 * h0 + h1) * m0 - h0 * m1) / (h0 + h1)
  if npSign d ≠ npSign m0 then 0
  else if npSign m0 ≠ npSign m1 ∧ |d| > 3 * |m0| then 3 * m0
  else d

/-- PCHIP derivative at knot `i` (`_find_derivatives`): linear for two
points; weighted harmonic mean of adjacent slopes (or `0` at a local
extremum) in the interior; `_edge_case` at the two ends. -/
noncomputable def derivAt (pts : List (ℝ × ℝ)) (i : ℕ) : ℝ :=
  let n := pts.length
  if n = 2 then slope pts 0
  else if i = 0 then edgeDeriv (hk pts 0) (hk pts 1) (slope pts 0) (slope pts 1)
  else if i = n - 1 then
    edgeDeriv (hk pts (n - 2)) (hk pts (n - 3)) (slope pts (n - 2)) (slope pts (n - 3))
  else
    let mp := slope pts (i - 1)
    let mi := slope pts i
    if npSign mp ≠ npSign mi ∨ mi = 0 ∨ mp = 0 then 0
    else
      let w1 := 2 * hk pts i + hk pts (i - 1)
      let w2 := hk pts i + 2 * hk pts (i - 1)
      (w1 + w2) / (w1 / mp + w2 / mi)

/-- Breakpoint interval located by `PPoly.__call__`
(`np.searchsorted(x, t, side="right") - 1`, clamped to a valid interval;
out-of-range points use the first/last cubic, i.e. extrapolation). -/
noncomputable def locate (pts : List (ℝ × ℝ)) (t : ℝ) : ℕ :=
  min (pts.length - 2) (((pts.map Prod.fst).countP fun x => decide (x ≤ t)) - 1)

/-- The cubic Hermite piece on interval `k` evaluated at local offset
`s = t - x[k]` (the polynomial form `CubicHermiteSpline` stores). -/
noncomputable def hermite (pts : List (ℝ × ℝ)) (k : ℕ) (s : ℝ) : ℝ :=
  yval pts k + derivAt pts k * s
    + ((3 * slope pts k - 2 * derivAt pts k - derivAt pts (k + 1)) / hk pts k) * s ^ 2
    + ((derivAt pts k + derivAt pts (k + 1) - 2 * slope pts k) / hk pts k ^ 2) * s ^ 3

/-- Evaluation of the PCHIP cubic Hermite piece containing `t`. -/
noncomputable def eval (pts : List (ℝ × ℝ)) (t : ℝ) : ℝ :=
  hermite pts (locate pts t) (t - xval pts (locate pts t))

/-- `scipy.interpolate.PchipInterpolator(x, y)`: fails on fewer than two
data points or a non-increasing abscissa sequence, otherwise yields the
evaluation function. -/
noncomputable def interpolate (pts : List (ℝ × ℝ)) : Except String (ℝ → ℝ) :=
  if pts.length < 2 then .error "x must contain at least 2 elements"
  else if (pts.map Prod.fst).Chain' (· < ·) then .ok (eval pts)
  else .error "x must be a strictly increasing sequence"

theorem yval_of_all_zero (pts : List (ℝ × ℝ)) (hy : ∀ p ∈ pts, p.2 = 0) (j : ℕ) :
    yval pts j = 0 := by
  induction pts generalizing j with
  | nil => simp [yval]
  | cons p t ih =>
    match j with
    | 0 =>
      simp only [yval, List.map_cons, List.getD_cons_zero]
      exact hy p (List.mem_cons_self p t)
    | j + 1 =>
      simp only [yval, List.map_cons, List.getD_cons_succ]
      exact ih (fun q hq => hy q (List.mem_cons_of_mem p hq)) j

theorem slope_of_all_zero (pts : List (ℝ × ℝ)) (hy : ∀ p ∈ pts, p.2 = 0) (j : ℕ) :
    slope pts j = 0 := by
  unfold slope
  rw [yval_of_all_zero pts hy, yval_of_all_zero pts hy]
  simp

theorem npSign_zero : npSign 0 = 0 := by
  unfold npSign
  simp

theorem edgeDeriv_zero (h0 h1 : ℝ) : edgeDeriv h0 h1 0 0 = 0 := by
  unfold edgeDeriv
  simp

theorem derivAt_of_all_zero (pts : List (ℝ × ℝ)) (hy : ∀ p ∈ pts, p.2 = 0) (i : ℕ) :
    derivAt pts i = 0 := by
  unfold derivAt
  simp only [slope_of_all_zero pts hy, edgeDeriv_zero]
  split
  · rfl
  · split
    · rfl
    · split
      · rfl
      · simp

theorem eval_of_all_zero (pts : List (ℝ × ℝ)) (hy : ∀ p ∈ pts, p.2 = 0) (t : ℝ) :
    eval pts t = 0 := by
  unfold eval hermite
  rw [yval_of_all_zero pts hy, slope_of_all_zero pts hy, derivAt_of_all_zero pts hy,
    derivAt_of_all_zero pts hy]
  ring_nf

/-- The interpolant passes through its first knot. -/
theorem eval_head (x0 y0 : ℝ) (rest : List (ℝ × ℝ))
    (hchain : (((x0, y0) :: rest).map Prod.fst).Chain' (· < ·)) :
    eval ((x0, y0) :: rest) x0 = y0 := by
  have hpair : (((x0, y0) :: rest).map Prod.fst).Pairwise (· < ·) :=
    List.chain'_iff_pairwise.mp hchain
  have hrest : ∀ x ∈ rest.map Prod.fst, x0 < x := by
    intro x hx
    exact (List.pairwise_cons.mp hpair).1 x hx
  have hcount : ((((x0, y0) :: rest).map Prod.fst).countP fun x => decide (x ≤ x0)) = 1 := by
    rw [List.map_cons, List.countP_cons]
    have h0 : (rest.map Prod.fst).countP (fun x => decide (x ≤ x0)) = 0 := by
      rw [List.countP_eq_zero]
      intro x hx
      simpa using not_le.mpr (hrest x hx)
    simp [h0]
  have hloc : locate ((x0, y0) :: rest) x0 = 0 := by
    unfold locate
    rw [hcount]
    simp
  have hx0 : xval ((x0, y0) :: rest) 0 = x0 := by
    simp [xval]
  unfold eval
  rw [hloc, hx0, sub_self]
  unfold hermite
  ring_nf
  simp [yval]

/-- With exactly two knots the interpolant passes through the right knot. -/
theorem eval_two_right (a b ya yb : ℝ) (hab : a < b) :
    eval [(a, ya), (b, yb)] b = yb := by
  have hcount : (([((a : ℝ), ya), (b, yb)].map Prod.fst).countP fun x => decide (x ≤ b)) = 2 := by
    simp [List.countP_cons, le_of_lt hab]
  have hloc : locate [(a, ya), (b, yb)] b = 0 := by
    unfold locate
    rw [hcount]
    rfl
  have hne : b - a ≠ 0 := sub_ne_zero.mpr hab.ne'
  have hd : ∀ i : ℕ, derivAt [(a, ya), (b, yb)] i = slope [(a, ya), (b, yb)] 0 := by
    intro i
    unfold derivAt
    simp
  unfold eval
  rw [hloc]
  unfold hermite
  rw [hd 0, hd 1]
  have hxv : xval [(a, ya), (b, yb)] 0 = a := by simp [xval]
  have hhk : hk [(a, ya), (b, yb)] 0 = b - a := by simp [hk, xval]
  have hsl : slope [(a, ya), (b, yb)] 0 = (yb - ya) / (b - a) := by
    simp [slope, yval, hhk, xval]
  have hyv : yval [(a, ya), (b, yb)] 0 = ya := by simp [yval]
  rw [hxv, hhk, hsl, hyv]
  field_simp
  ring

end Pchip

/-! ## Curve container (curves.py) -/

/-- One record of the curve's structured array
`(maturity, timestamp, name, par_rate, discount_factor)`; the
`discount_factor` column stores the natural log of the discount factor. -/
structure CurveNode where
  maturity : ℤ
  timestamp : ℝ
  name : String
  par_rate : ℝ
  discount_factor : ℝ

noncomputable instance : Inhabited CurveNode := ⟨⟨0, 0, "NA", 0, 0⟩⟩

/-- The face an instrument shows to `Curve.build`: the attributes the
build loop reads (`maturity`, whether it is a `SwapInstrument`, the last
payment date of its fixed schedule, the optional `price` /
`leg_one_spread` attributes, `rate`, `name`) plus its `discount_factor`
method, which reads back into the curve's current node array. -/
structure BuildInstrument where
  maturity : ℤ
  isSwap : Bool
  fixedLastPayment : ℤ
  price : Option ℝ
  leg_one_spread : Option ℝ
  leg_two_spread : ℝ
  rate : ℝ
  name : String
  dfFun : List CurveNode → ℝ

/-- The date under which `Curve.build` records an instrument's node:
`fixed_schedule.periods[-1]["payment_date"]` for a `SwapInstrument`,
otherwise the plain `maturity`. -/
def nodeDate (i : BuildInstrument) : ℤ := if i.isSwap then i.fixedLastPayment else i.maturity

/-- The par rate `Curve.build` records: `price` if present, else the
magnitude comparison between the two spreads (both branches of which
yield `leg_one_spread` in the source), else `rate`. -/
noncomputable def instRate (i : BuildInstrument) : ℝ :=
  match i.price with
  | some p => p
  | none =>
    match i.leg_one_spread with
    | some s1 => if |s1| > |i.leg_two_spread| then s1 else s1
    | none => i.rate

/-- The node `Curve.build` appends for an instrument, given the curve's
node array at the moment `instrument.discount_factor()` is called. -/
noncomputable def mkNode (i : BuildInstrument) (cur : List CurveNode) : CurveNode :=
  { maturity := nodeDate i, timestamp := (nodeDate i : ℝ), name := i.name,
    par_rate := instRate i, discount_factor := i.dfFun cur }

/-- State of a `Curve` object. -/
structure CurveState where
  nodes : List CurveNode
  instruments : List BuildInstrument
  built : Bool
  date : ℤ
  allow_extrapolation : Bool

/-- `Curve.__init__`: a single record holding the effective date with
log-discount-factor `np.log(1)`. -/
noncomputable def freshCurve (effective : ℤ) : CurveState :=
  { nodes := [⟨effective, (effective : ℝ), "NA", 0, Real.log 1⟩],
    instruments := [], built := false, date := effective, allow_extrapolation := true }

/-- `Curve.add_instrument`: type-checked append that clears the built
flag. -/
noncomputable def Curve.add_instrument (c : CurveState) (i : BuildInstrument) : CurveState :=
  { c with built := false, instruments := c.instruments ++ [i] }

/-- Registering a list of instruments one at a time. -/
noncomputable def addInstruments (c : CurveState) (l : List BuildInstrument) : CurveState :=
  l.foldl Curve.add_instrument c

/-- The sort key of `build()`: `operator.attrgetter("maturity")`. -/
def instLE (a b : BuildInstrument) : Prop := a.maturity ≤ b.maturity

instance : DecidableRel instLE := fun a b => inferInstanceAs (Decidable (a.maturity ≤ b.maturity))

instance : IsTotal BuildInstrument instLE := ⟨fun a b => le_total a.maturity b.maturity⟩

instance : IsTrans BuildInstrument instLE := ⟨fun _ _ _ h1 h2 => le_trans h1 h2⟩

/-- `self.instruments.sort(key=operator.attrgetter("maturity"))`
(Python's sort is stable; so is insertion sort). -/
def sortInsts (l : List BuildInstrument) : List BuildInstrument := List.insertionSort instLE l

/-- The build loop: for each instrument in order, call its
`discount_factor()` against the current node array and append one node. -/
noncomputable def buildNodes (acc : List CurveNode) : List BuildInstrument → List CurveNode
  | [] => acc
  | i :: rest => buildNodes (acc ++ [mkNode i acc]) rest

/-- `Curve.build()`: reset the array to its first record, sort the
instruments by maturity, run the build loop, set the built flag. -/
noncomputable def Curve.build (c : CurveState) : CurveState :=
  { c with nodes := buildNodes (c.nodes.take 1) (sortInsts c.instruments), built := true }

/-- `Curve.log_discount_factor`: build a PCHIP interpolant over the
node (timestamp, log-DF) pairs and evaluate it; with extrapolation
disabled an out-of-range date yields NaN (modelled as an error). -/
noncomputable def Curve.log_discount_factor (c : CurveState) (t : ℝ) : Except String ℝ :=
  (Pchip.interpolate (c.nodes.map fun n => (n.timestamp, n.discount_factor))).bind fun f =>
    if c.allow_extrapolation = false ∧
        (t < Pchip.xval (c.nodes.map fun n => (n.timestamp, n.discount_factor)) 0 ∨
          Pchip.xval (c.nodes.map fun n => (n.timestamp, n.discount_factor))
            (c.nodes.length - 1) < t)
    then .error "nan: extrapolation disabled"
    else .ok (f t)

/-- `Curve.discount_factor(date)`: `np.exp` of the interpolated log-DF. -/
noncomputable def Curve.discount_factor (c : CurveState) (date : ℤ) : Except String ℝ :=
  (Curve.log_discount_factor c (date : ℝ)).map Real.exp

theorem buildNodes_append_insts (l1 l2 : List BuildInstrument) (acc : List CurveNode) :
    buildNodes acc (l1 ++ l2) = buildNodes (buildNodes acc l1) l2 := by
  induction l1 generalizing acc with
  | nil => simp [buildNodes]
  | cons i rest ih => simp [buildNodes, ih]

theorem buildNodes_strict_append (l : List BuildInstrument) (acc : List CurveNode) :
    ∃ tl, buildNodes acc l = acc ++ tl := by
  induction l generalizing acc with
  | nil => exact ⟨[], by simp [buildNodes]⟩
  | cons i rest ih =>
    obtain ⟨tl, htl⟩ := ih (acc ++ [mkNode i acc])
    exact ⟨[mkNode i acc] ++ tl, by simp [buildNodes, htl]⟩

theorem buildNodes_length (l : List BuildInstrument) (acc : List CurveNode) :
    (buildNodes acc l).length = acc.length + l.length := by
  induction l generalizing acc with
  | nil => simp [buildNodes]
  | cons i rest ih =>
    simp only [buildNodes, ih, List.length_append, List.length_cons, List.length_nil]
    omega

theorem buildNodes_get_maturity (l : List BuildInstrument) :
    ∀ (acc : List CurveNode) (i : ℕ) (hi : i < l.length),
      ((buildNodes acc l).getD (acc.length + i) default).maturity = nodeDate (l.get ⟨i, hi⟩) := by
  induction l with
  | nil => intro acc i hi; simp at hi
  | cons i0 rest ih =>
    intro acc i hi
    match i with
    | 0 =>
      obtain ⟨tl, htl⟩ := buildNodes_strict_append rest (acc ++ [mkNode i0 acc])
      simp only [buildNodes, htl, List.append_assoc, Nat.add_zero]
      rw [List.getD_append_right acc ([mkNode i0 acc] ++ tl) default acc.length le_rfl]
      simp [mkNode]
    | i + 1 =>
      have h := ih (acc ++ [mkNode i0 acc]) i (by simpa using Nat.lt_of_succ_lt_succ hi)
      simp only [List.length_append, List.length_singleton] at h
      simp only [buildNodes]
      rw [show acc.length + (i + 1) = acc.length + 1 + i by omega]
      exact h

/-- C1: for every Curve with a non-empty instrument list, `build()`
sorts the instruments ascending by maturity (a permutation of the
original list) and then appends exactly one node per instrument in that
order — the final array has one node per instrument after the initial
record, the node recorded for the `i`-th sorted instrument is keyed by
its fixed schedule's last payment date when it is a swap and by its
plain maturity otherwise, and each intermediate array is a prefix of the
final one (append-only growth). -/
theorem curve_build_appends_one_node_per_instrument (c : CurveState)
    (hn : c.nodes ≠ []) (h : c.instruments ≠ []) :
    List.Sorted instLE (sortInsts c.instruments) ∧
    (sortInsts c.instruments).Perm c.instruments ∧
    (Curve.build c).built = true ∧
    (Curve.build c).nodes.length = c.instruments.length + 1 ∧
    (∀ i (hi : i < (sortInsts c.instruments).length),
      ((Curve.build c).nodes.getD (1 + i) default).maturity
        = nodeDate ((sortInsts c.instruments).get ⟨i, hi⟩)) ∧
    (∀ k, ∃ tl, (Curve.build c).nodes
        = buildNodes (c.nodes.take 1) ((sortInsts c.instruments).take k) ++ tl) := by
  have hlen1 : (c.nodes.take 1).length = 1 := by
    rw [List.length_take]
    have := List.length_pos.mpr hn
    omega
  have hperm : (sortInsts c.instruments).Perm c.instruments :=
    List.perm_insertionSort instLE c.instruments
  refine ⟨List.sorted_insertionSort instLE c.instruments, hperm, rfl, ?_, ?_, ?_⟩
  · show (buildNodes (c.nodes.take 1) (sortInsts c.instruments)).length = _
    rw [buildNodes_length, hlen1, hperm.length_eq]
    omega
  · intro i hi
    have hkey := buildNodes_get_maturity (sortInsts c.instruments) (c.nodes.take 1) i hi
    rwa [hlen1] at hkey
  · intro k
    obtain ⟨tl, htl⟩ := buildNodes_strict_append ((sortInsts c.instruments).drop k)
      (buildNodes (c.nodes.take 1) ((sortInsts c.instruments).take k))
    refine ⟨tl, ?_⟩
    show buildNodes (c.nodes.take 1) (sortInsts c.instruments) = _
    have hsplit : buildNodes (c.nodes.take 1) (sortInsts c.instruments)
        = buildNodes (c.nodes.take 1)
            ((sortInsts c.instruments).take k ++ (sortInsts c.instruments).drop k) := by
      rw [List.take_append_drop]
    rw [hsplit, buildNodes_append_insts, htl]

/-- A plain node used by concrete instances below. -/
noncomputable def wNode0 : CurveNode := ⟨0, 0, "NA", 0, 0⟩

/-- A concrete cash-like instrument (no `price`, no `leg_one_spread`). -/
noncomputable def wInstA : BuildInstrument :=
  ⟨10, false, 0, none, none, 0, 1 / 100, "A", fun _ => -1 / 100⟩

/-- A concrete swap-like instrument whose fixed schedule's last payment
date (6) differs from its nominal maturity (5). -/
noncomputable def wInstB : BuildInstrument :=
  ⟨5, true, 6, none, none, 0, 2 / 100, "B", fun ns => (ns.length : ℝ)⟩

/-- A concrete curve with two out-of-order instruments. -/
noncomputable def wCurve : CurveState := ⟨[wNode0], [wInstA, wInstB], false, 0, true⟩

theorem curve_build_appends_one_node_per_instrument_witness :
    List.Sorted instLE (sortInsts wCurve.instruments) ∧
    (sortInsts wCurve.instruments).Perm wCurve.instruments ∧
    (Curve.build wCurve).built = true ∧
    (Curve.build wCurve).nodes.length = wCurve.instruments.length + 1 ∧
    (∀ i (hi : i < (sortInsts wCurve.instruments).length),
      ((Curve.build wCurve).nodes.getD (1 + i) default).maturity
        = nodeDate ((sortInsts wCurve.instruments).get ⟨i, hi⟩)) ∧
    (∀ k, ∃ tl, (Curve.build wCurve).nodes
        = buildNodes (wCurve.nodes.take 1) ((sortInsts wCurve.instruments).take k) ++ tl) :=
  curve_build_appends_one_node_per_instrument wCurve (by simp [wCurve]) (by simp [wCurve])

/-- C10: the par rate `Curve.build` records in a node is the
instrument's `price` when present; otherwise, when the instrument has a
`leg_one_spread` attribute, always `leg_one_spread` (both branches of
the magnitude comparison assign it, so `leg_two_spread` is never
recorded); otherwise the instrument's `rate`. -/
theorem build_par_rate_ignores_leg_two_spread (i : BuildInstrument) :
    (∀ p, i.price = some p → instRate i = p) ∧
    (i.price = none → ∀ s, i.leg_one_spread = some s → instRate i = s) ∧
    (i.price = none → i.leg_one_spread = none → instRate i = i.rate) := by
  refine ⟨?_, ?_, ?_⟩
  · intro p hp
    simp [instRate, hp]
  · intro hp s hs
    simp [instRate, hp, hs]
  · intro hp hs
    simp [instRate, hp, hs]

/-- An instrument whose `leg_two_spread` dominates in magnitude; the
recorded rate is still `leg_one_spread`. -/
noncomputable def wInstSpread : BuildInstrument :=
  ⟨0, false, 0, none, some 5, 100, 0, "X", fun _ => 0⟩

theorem build_par_rate_ignores_leg_two_spread_witness :
    instRate wInstSpread = 5 :=
  (build_par_rate_ignores_leg_two_spread wInstSpread).2.1 rfl 5 rfl

/-! ## LIBORCurve (dual-curve build ordering) -/

/-- State of a `LIBORCurve`: the curve itself plus the optional
`discount_curve` reference (`none` models `discount_curve = False`). -/
structure LiborCurveState where
  base : CurveState
  discount_curve : Option CurveState

/-- `LIBORCurve.build()`: build the discount curve first when it exists
and has not been built, then run the base class build. -/
noncomputable def LiborCurve.build (c : LiborCurveState) : LiborCurveState :=
  { base := Curve.build c.base,
    discount_curve :=
      match c.discount_curve with
      | none => none
      | some d => some (if d.built = false then Curve.build d else d) }

/-- C9: building a `LIBORCurve` whose discount curve is unbuilt first
builds the discount curve, leaving it built with nodes bootstrapped
from its own instrument list; an already-built discount curve is not
rebuilt. -/
theorem libor_build_builds_discount_first (c : LiborCurveState) (d : CurveState)
    (hd : c.discount_curve = some d) :
    (d.built = false →
      (LiborCurve.build c).discount_curve = some (Curve.build d) ∧
      (Curve.build d).built = true ∧
      (Curve.build d).nodes = buildNodes (d.nodes.take 1) (sortInsts d.instruments)) ∧
    (d.built = true → (LiborCurve.build c).discount_curve = some d) := by
  constructor <;> intro hb <;> simp [LiborCurve.build, hd, hb, Curve.build]

/-- A concrete unbuilt discount curve. -/
noncomputable def wDisc : CurveState := ⟨[wNode0], [wInstA], false, 0, true⟩

/-- A concrete LIBOR curve referencing `wDisc`. -/
noncomputable def wLibor : LiborCurveState := ⟨⟨[wNode0], [], false, 0, true⟩, some wDisc⟩

theorem libor_build_builds_discount_first_witness :
    (LiborCurve.build wLibor).discount_curve = some (Curve.build wDisc) ∧
    (Curve.build wDisc).built = true ∧
    (Curve.build wDisc).nodes = buildNodes (wDisc.nodes.take 1) (sortInsts wDisc.instruments) :=
  (libor_build_builds_discount_first wLibor wDisc rfl).1 rfl

/-! ## Discount factor at the effective date (C2) -/

theorem addInstruments_nodes (l : List BuildInstrument) (c : CurveState) :
    (addInstruments c l).nodes = c.nodes := by
  induction l generalizing c with
  | nil => rfl
  | cons i rest ih => simpa [addInstruments, Curve.add_instrument] using ih _

theorem addInstruments_instruments (l : List BuildInstrument) (c : CurveState) :
    (addInstruments c l).instruments = c.instruments ++ l := by
  induction l generalizing c with
  | nil => simp [addInstruments]
  | cons i rest ih =>
    simp only [addInstruments, List.foldl_cons] at *
    rw [ih]
    simp [Curve.add_instrument]

theorem addInstruments_extrap (l : List BuildInstrument) (c : CurveState) :
    (addInstruments c l).allow_extrapolation = c.allow_extrapolation := by
  induction l generalizing c with
  | nil => rfl
  | cons i rest ih => simpa [addInstruments, Curve.add_instrument] using ih _

/-- C2 counterexample: on a freshly constructed Curve the node array
holds a single record, and `scipy.interpolate.PchipInterpolator`
requires at least two data points — `discount_factor(effective_date)`
fails instead of returning 1. -/
theorem discount_factor_before_build_errors :
    Curve.discount_factor (freshCurve 0) 0 = .error "x must contain at least 2 elements" := by
  unfold Curve.discount_factor Curve.log_discount_factor freshCurve Pchip.interpolate
  simp [Except.bind, Except.map]

/-- C2 (amended): after `build()` with at least one instrument (and
strictly increasing node timestamps, which valid instrument sets
produce), `discount_factor(effective_date) = 1`; before `build()` the
single-record array makes the PCHIP interpolant construction fail. -/
theorem discount_factor_at_effective_after_build (e : ℤ) (insts : List BuildInstrument)
    (hne : insts ≠ [])
    (hchain : (((Curve.build (addInstruments (freshCurve e) insts)).nodes.map
        fun n => (n.timestamp, n.discount_factor)).map Prod.fst).Chain' (· < ·)) :
    Curve.discount_factor (Curve.build (addInstruments (freshCurve e) insts)) e = .ok 1 := by
  obtain ⟨tl, htl⟩ := buildNodes_strict_append (sortInsts insts)
    ([(⟨e, (e : ℝ), "NA", 0, Real.log 1⟩ : CurveNode)])
  have hnodes : (Curve.build (addInstruments (freshCurve e) insts)).nodes
      = (⟨e, (e : ℝ), "NA", 0, Real.log 1⟩ : CurveNode) :: tl := by
    show buildNodes _ (sortInsts _) = _
    rw [addInstruments_nodes, addInstruments_instruments]
    simpa [freshCurve] using htl
  have hlen : ¬ ((Curve.build (addInstruments (freshCurve e) insts)).nodes.map
      fun n => (n.timestamp, n.discount_factor)).length < 2 := by
    rw [List.length_map, hnodes]
    have h1 : tl.length = insts.length := by
      have := buildNodes_length (sortInsts insts)
        ([(⟨e, (e : ℝ), "NA", 0, Real.log 1⟩ : CurveNode)])
      rw [htl] at this
      have hs : (sortInsts insts).length = insts.length :=
        (List.perm_insertionSort instLE insts).length_eq
      simp only [List.length_append, List.length_cons, List.length_nil, hs] at this
      omega
    have h2 : 0 < insts.length := List.length_pos.mpr hne
    simp only [List.length_cons]
    omega
  have hinterp : Pchip.interpolate ((Curve.build (addInstruments (freshCurve e) insts)).nodes.map
      fun n => (n.timestamp, n.discount_factor)) =
      .ok (Pchip.eval ((Curve.build (addInstruments (freshCurve e) insts)).nodes.map
        fun n => (n.timestamp, n.discount_factor))) := by
    unfold Pchip.interpolate
    rw [if_neg hlen, if_pos hchain]
  have hpts : ((Curve.build (addInstruments (freshCurve e) insts)).nodes.map
      fun n => (n.timestamp, n.discount_factor))
      = ((e : ℝ), Real.log 1) :: tl.map (fun n => (n.timestamp, n.discount_factor)) := by
    rw [hnodes]
    simp
  have hchain2 := hchain
  rw [hpts] at hchain2
  have heval : Pchip.eval (((e : ℝ), Real.log 1) :: tl.map fun n => (n.timestamp, n.discount_factor))
      (e : ℝ) = Real.log 1 :=
    Pchip.eval_head (e : ℝ) (Real.log 1) _ hchain2
  have hext : (Curve.build (addInstruments (freshCurve e) insts)).allow_extrapolation = true := by
    show (addInstruments (freshCurve e) insts).allow_extrapolation = true
    rw [addInstruments_extrap]
    rfl
  unfold Curve.discount_factor Curve.log_discount_factor
  rw [hinterp]
  simp only [Except.bind, hext]
  rw [if_neg (by simp)]
  rw [hpts, heval]
  simp [Except.map, Real.log_one, Real.exp_zero]

theorem discount_factor_at_effective_after_build_witness :
    Curve.discount_factor (Curve.build (addInstruments (freshCurve 0) [wInstA])) 0 = .ok 1 :=
  discount_factor_at_effective_after_build 0 [wInstA] (by simp)
    (by
      have hnodes : (Curve.build (addInstruments (freshCurve 0) [wInstA])).nodes
          = [⟨0, (0 : ℝ), "NA", 0, Real.log 1⟩,
             ⟨10, (10 : ℝ), "A", 1 / 100, -1 / 100⟩] := by
        show buildNodes _ (sortInsts _) = _
        rw [addInstruments_nodes, addInstruments_instruments]
        simp [freshCurve, sortInsts, buildNodes, mkNode, wInstA, nodeDate, instRate]
      rw [hnodes]
      simp [Real.log_one])

/-! ## Cash instrument (cash.py) and its bootstrapped curve (C5) -/

/-- `Instrument.daycount` for the actual/fixed-denominator conventions.
The source lowercases the basis string first (`basis.lower()`); basis
strings are modelled here already in lower case.  The `30360`/`30E360`
branches operate on year/month/day components, which lie outside the
day-number date model used for curve arithmetic; an unrecognized basis
raises in the source. -/
noncomputable def daycount (effective maturity : ℤ) (basis : String) : ℝ :=
  if basis = "act360" then ((maturity - effective : ℤ) : ℝ) / 360
  else if basis = "act365" then ((maturity - effective : ℤ) : ℝ) / 365
  else 0

/-- Market data of a `LIBORInstrument` after construction: its rate, the
owning curve's date, its maturity and its accrual basis. -/
structure LiborCashInstrument where
  rate : ℝ
  curve_date : ℤ
  maturity : ℤ
  basis : String

/-- `self.accrual_period = daycount(self.curve.date, self.maturity,
self.basis)` from `LIBORInstrument.__init__`. -/
noncomputable def LiborCashInstrument.accrual_period (i : LiborCashInstrument) : ℝ :=
  daycount i.curve_date i.maturity i.basis

/-- `LIBORInstrument.discount_factor()`:
`np.log(1 / (1 + rate * accrual_period))`. -/
noncomputable def LiborCashInstrument.discount_factor (i : LiborCashInstrument) : ℝ :=
  Real.log (1 / (1 + i.rate * i.accrual_period))

/-- The face a cash instrument shows to `Curve.build`: not a
`SwapInstrument`, no `price` and no `leg_one_spread` attribute. -/
noncomputable def LiborCashInstrument.toBuild (i : LiborCashInstrument) (nm : String) :
    BuildInstrument :=
  { maturity := i.maturity, isSwap := false, fixedLastPayment := 0, price := none,
    leg_one_spread := none, leg_two_spread := 0, rate := i.rate, name := nm,
    dfFun := fun _ => i.discount_factor }

/-- C5: `LIBORInstrument.discount_factor()` returns
`log(1 / (1 + rate × accrual_fraction))` with the accrual fraction
computed by the day-count convention, and for a single cash instrument
with rate `r`, act/360 basis and a 1-day accrual, the built curve's
discount factor at the instrument's maturity is exactly
`1 / (1 + r/360)`. -/
theorem libor_cash_one_day_discount_factor (e : ℤ) (r : ℝ) (hpos : 0 < 1 + r / 360) :
    LiborCashInstrument.discount_factor ⟨r, e, e + 1, "act360"⟩
      = Real.log (1 / (1 + r * daycount e (e + 1) "act360")) ∧
    Curve.discount_factor
      (Curve.build (addInstruments (freshCurve e)
        [LiborCashInstrument.toBuild ⟨r, e, e + 1, "act360"⟩ "CASH"]))
      (e + 1) = .ok (1 / (1 + r / 360)) := by
  have hday : daycount e (e + 1) "act360" = 1 / 360 := by
    unfold daycount
    rw [if_pos rfl]
    push_cast
    ring
  have hdf : LiborCashInstrument.discount_factor ⟨r, e, e + 1, "act360"⟩
      = Real.log (1 / (1 + r / 360)) := by
    unfold LiborCashInstrument.discount_factor LiborCashInstrument.accrual_period
    rw [show (⟨r, e, e + 1, "act360"⟩ : LiborCashInstrument).basis = "act360" from rfl]
    rw [show (⟨r, e, e + 1, "act360"⟩ : LiborCashInstrument).curve_date = e from rfl]
    rw [show (⟨r, e, e + 1, "act360"⟩ : LiborCashInstrument).maturity = e + 1 from rfl]
    rw [hday]
    ring_nf
  refine ⟨by rw [hdf, hday]; congr 1; ring, ?_⟩
  have hnodes : (Curve.build (addInstruments (freshCurve e)
      [LiborCashInstrument.toBuild ⟨r, e, e + 1, "act360"⟩ "CASH"])).nodes
      = [⟨e, (e : ℝ), "NA", 0, Real.log 1⟩,
         ⟨e + 1, ((e + 1 : ℤ) : ℝ), "CASH", r, Real.log (1 / (1 + r / 360))⟩] := by
    show buildNodes _ (sortInsts _) = _
    rw [addInstruments_nodes, addInstruments_instruments]
    simp only [freshCurve, List.nil_append, List.take_succ_cons, List.take_zero, sortInsts,
      List.insertionSort]
    simp [buildNodes, mkNode, nodeDate, instRate, LiborCashInstrument.toBuild, hdf]
  have hcast : ((e : ℝ)) < ((e + 1 : ℤ) : ℝ) := by
    push_cast
    linarith
  have hchain : (([⟨e, (e : ℝ), "NA", 0, Real.log 1⟩,
        (⟨e + 1, ((e + 1 : ℤ) : ℝ), "CASH", r, Real.log (1 / (1 + r / 360))⟩ : CurveNode)].map
      fun n => (n.timestamp, n.discount_factor)).map Prod.fst).Chain' (· < ·) := by
    simp [hcast]
  have hlog1 : Real.log 1 = 0 := Real.log_one
  unfold Curve.discount_factor Curve.log_discount_factor
  rw [hnodes]
  unfold Pchip.interpolate
  rw [if_neg (by simp), if_pos hchain]
  simp only [Except.bind]
  rw [if_neg (by
    intro hcon
    have : (Curve.build (addInstruments (freshCurve e)
        [LiborCashInstrument.toBuild ⟨r, e, e + 1, "act360"⟩ "CASH"])).allow_extrapolation = true := by
      show (addInstruments (freshCurve e) _).allow_extrapolation = true
      rw [addInstruments_extrap]
      rfl
    rw [this] at hcon
    exact absurd hcon.1 (by simp))]
  have heval : Pchip.eval ([⟨e, (e : ℝ), "NA", 0, Real.log 1⟩,
        (⟨e + 1, ((e + 1 : ℤ) : ℝ), "CASH", r, Real.log (1 / (1 + r / 360))⟩ : CurveNode)].map
      fun n => (n.timestamp, n.discount_factor)) ((e + 1 : ℤ) : ℝ)
      = Real.log (1 / (1 + r / 360)) := by
    simp only [List.map_cons, List.map_nil]
    exact Pchip.eval_two_right (e : ℝ) ((e + 1 : ℤ) : ℝ) (Real.log 1)
      (Real.log (1 / (1 + r / 360))) hcast
  rw [heval]
  have hfrac : (0 : ℝ) < 1 / (1 + r / 360) := by positivity
  show Except.ok (Real.exp (Real.log (1 / (1 + r / 360)))) = _
  rw [Real.exp_log hfrac]

theorem libor_cash_one_day_discount_factor_witness :
    LiborCashInstrument.discount_factor ⟨1 / 100, 0, 0 + 1, "act360"⟩
      = Real.log (1 / (1 + (1 / 100) * daycount 0 (0 + 1) "act360")) ∧
    Curve.discount_factor
      (Curve.build (addInstruments (freshCurve 0)
        [LiborCashInstrument.toBuild ⟨1 / 100, 0, 0 + 1, "act360"⟩ "CASH"]))
      (0 + 1) = .ok (1 / (1 + (1 / 100) / 360)) :=
  libor_cash_one_day_discount_factor 0 (1 / 100) (by norm_num)

/-! ## OIS floating-leg forward rate (oisswap.py, C6) -/

/-- The weekday filter of `OISSwapInstrument.__forward_rate`:
`((first_dates.astype("datetime64[D]").view("int64") - 4) % 7) < 5`
keeps Monday through Friday, removing Saturdays and Sundays. -/
def isKeptDay (d : ℤ) : Bool := decide ((d - 4) % 7 < 5)

/-- `OISSwapInstrument.__forward_rate`: over the accrual window
`[accrual_start, accrual_end)`, drop the weekend days, pair each kept
day with the next one (`np.roll(first_dates, -1)` with the final pair
re-pointed at the accrual end), and compound the discount-factor ratios.
An all-weekend window raises an IndexError in the source
(`second_dates[-1]` on an empty array), modelled as `none`. -/
noncomputable def ois_forward_rate (interp : ℝ → ℝ) (accrual_start accrual_end : ℤ) :
    Option ℝ :=
  if ((arangeDays accrual_start accrual_end).filter isKeptDay).isEmpty then none
  else some
    ((List.zipWith (fun (a b : ℤ) => Real.exp (interp (a : ℝ)) / Real.exp (interp (b : ℝ)))
      ((arangeDays accrual_start accrual_end).filter isKeptDay)
      ((((arangeDays accrual_start accrual_end).filter isKeptDay).rotateLeft 1).set
        (((arangeDays accrual_start accrual_end).filter isKeptDay).length - 1)
        accrual_end)).prod - 1)

/-- Saturday and Sunday collapsed onto the preceding Friday. -/
def collapseWeekend (d : ℤ) : ℤ :=
  if weekday d = 5 then d - 1 else if weekday d = 6 then d - 2 else d

/-- The forward rate described by the specification: the product over
each calendar day of the accrual window of `DF(day)/DF(day+1)`, with
each Saturday and Sunday collapsed onto the preceding Friday so that the
Friday ratio enters three times, minus one. -/
noncomputable def spec_ois_forward_rate (interp : ℝ → ℝ) (s e : ℤ) : ℝ :=
  ((arangeDays s e).map fun d =>
    Real.exp (interp (collapseWeekend d : ℝ))
      / Real.exp (interp ((collapseWeekend d + 1 : ℤ) : ℝ))).prod - 1

/-- A log-discount-factor curve equal to 1 at day 2 (a Saturday in the
epoch used here) and 0 elsewhere. -/
noncomputable def gSat : ℝ → ℝ := fun t => if t = 2 then 1 else 0

/-- C6 counterexample: on the window `[Friday, Monday)` (days 1 to 4)
the code drops the weekend and telescopes Friday directly against the
accrual end, yielding 0 on `gSat`, while the specification's
tripled-Friday-ratio product yields `exp(-3) - 1 ≠ 0`. -/
theorem ois_forward_rate_counterexample :
    ois_forward_rate gSat 1 4 ≠ some (spec_ois_forward_rate gSat 1 4) := by
  have harr : arangeDays 1 4 = [1, 2, 3] := by decide
  have hfil : (([1, 2, 3] : List ℤ).filter isKeptDay) = [1] := by decide
  have hg1 : gSat 1 = 0 := by norm_num [gSat]
  have hg2 : gSat 2 = 1 := by norm_num [gSat]
  have hg4 : gSat 4 = 0 := by norm_num [gSat]
  have hL : ois_forward_rate gSat 1 4 = some 0 := by
    unfold ois_forward_rate
    simp only [harr, hfil]
    have hsec : ((([1] : List ℤ).rotateLeft 1).set (([1] : List ℤ).length - 1) 4)
        = [4] := by decide
    rw [hsec]
    rw [if_neg (by simp)]
    simp only [List.zipWith_cons_cons, List.zipWith_nil_right, List.prod_cons, List.prod_nil]
    push_cast
    rw [hg1, hg4]
    simp
  have hc1 : collapseWeekend 1 = 1 := by decide
  have hc2 : collapseWeekend 2 = 1 := by decide
  have hc3 : collapseWeekend 3 = 1 := by decide
  have hR : spec_ois_forward_rate gSat 1 4
      = Real.exp 0 / Real.exp 1 * (Real.exp 0 / Real.exp 1 * (Real.exp 0 / Real.exp 1)) - 1 := by
    unfold spec_ois_forward_rate
    rw [harr]
    simp only [List.map_cons, List.map_nil, List.prod_cons, List.prod_nil, hc1, hc2, hc3]
    push_cast
    rw [hg1, hg2]
    ring
  rw [hL, hR]
  intro hcon
  have h0 : (0 : ℝ)
      = Real.exp 0 / Real.exp 1 * (Real.exp 0 / Real.exp 1 * (Real.exp 0 / Real.exp 1)) - 1 :=
    Option.some.inj hcon
  have hlt : Real.exp 0 / Real.exp 1 * (Real.exp 0 / Real.exp 1 * (Real.exp 0 / Real.exp 1)) < 1 := by
    have h1 : Real.exp 0 / Real.exp 1 = Real.exp (-1) := by
      rw [← Real.exp_sub]
      norm_num
    rw [h1, ← Real.exp_add, ← Real.exp_add]
    rw [show (-1 : ℝ) + (-1 + -1) = -3 by ring]
    rw [← Real.exp_zero]
    exact Real.exp_lt_exp.mpr (by norm_num)
  linarith

theorem set_last_append (l : List ℤ) (x z : ℤ) : (l ++ [x]).set l.length z = l ++ [z] := by
  induction l with
  | nil => rfl
  | cons b t ih => simp [ih]

theorem rotate_set_eq_tail_append (a z : ℤ) (t : List ℤ) :
    (((a :: t).rotateLeft 1).set ((a :: t).length - 1) z) = t ++ [z] := by
  cases t with
  | nil => rfl
  | cons b t' =>
    have hrot : ((a :: b :: t').rotateLeft 1) = (b :: t') ++ [a] := by
      rw [List.rotateLeft]
      rw [if_neg (by simp)]
      rw [Nat.mod_eq_of_lt (by simp)]
      simp
    rw [hrot]
    have hlen : (a :: b :: t').length - 1 = (b :: t').length := by simp
    rw [hlen]
    exact set_last_append (b :: t') a z

theorem zipWith_ratio_prod (interp : ℝ → ℝ) (a : ℤ) (t : List ℤ) (z : ℤ) :
    (List.zipWith (fun (x y : ℤ) => Real.exp (interp (x : ℝ)) / Real.exp (interp (y : ℝ)))
        (a :: t) (t ++ [z])).prod
      = Real.exp (interp (a : ℝ)) / Real.exp (interp (z : ℝ)) := by
  induction t generalizing a with
  | nil => simp
  | cons b t' ih =>
    simp only [List.cons_append, List.zipWith_cons_cons, List.prod_cons]
    rw [ih b]
    have hb : Real.exp (interp ((b : ℤ) : ℝ)) ≠ 0 := Real.exp_ne_zero _
    have hz : Real.exp (interp ((z : ℤ) : ℝ)) ≠ 0 := Real.exp_ne_zero _
    field_simp

/-- C6 (amended): the OIS floating-leg forward rate removes Saturdays
and Sundays from the accrual window and compounds successive ratios
`DF(bᵢ)/DF(bᵢ₊₁)` over the kept days with the final ratio ending at the
accrual end; the product telescopes to
`DF(first kept day)/DF(accrual_end) - 1`.  (The window must contain at
least one weekday; weekend days contribute no tripled Friday factor.) -/
theorem ois_forward_rate_telescopes (interp : ℝ → ℝ) (s e : ℤ)
    (h : ((arangeDays s e).filter isKeptDay) ≠ []) :
    ois_forward_rate interp s e
      = some (Real.exp (interp ((((arangeDays s e).filter isKeptDay).headD 0 : ℤ) : ℝ))
          / Real.exp (interp ((e : ℤ) : ℝ)) - 1) := by
  obtain ⟨a, t, hat⟩ := List.exists_cons_of_ne_nil h
  unfold ois_forward_rate
  simp only [hat]
  rw [if_neg (by simp)]
  rw [rotate_set_eq_tail_append a e t]
  rw [zipWith_ratio_prod interp a t e]
  simp

theorem ois_forward_rate_telescopes_witness :
    ois_forward_rate (fun _ => 0) 4 5 = some (Real.exp 0 / Real.exp 0 - 1) := by
  have h := ois_forward_rate_telescopes (fun _ => 0) 4 5 (by decide)
  simpa using h

/-! ## Basis-swap valuation (instruments/basisswap.py, C3) -/

/-- The (timestamp, log-DF) pairs a curve node array feeds to the
interpolator. -/
noncomputable def nodesToPts (c : List CurveNode) : List (ℝ × ℝ) :=
  c.map fun n => (n.timestamp, n.discount_factor)

/-- One line of a swap schedule's period record array. -/
structure SchedPeriod where
  fixing_date : ℤ
  accrual_start : ℤ
  accrual_end : ℤ
  payment_date : ℤ

instance : Inhabited SchedPeriod := ⟨⟨0, 0, 0, 0⟩⟩

/-- Market data of a `BasisSwapInstrument` after construction. -/
structure BasisSwapInst where
  leg_one_schedule : List SchedPeriod
  leg_two_schedule : List SchedPeriod
  leg_one_spread : ℝ
  leg_two_spread : ℝ
  leg_one_basis : String
  leg_two_basis : String
  leg_one_rate_basis : String
  leg_two_rate_basis : String
  leg_two_rate_tenor_days : ℤ
  notional : ℝ
  name : String

/-- The three node arrays a `SimultaneousStrippedCurve` exposes to a
basis swap's `_swap_value`: `curve_one`, `curve_two` and the shared
`discount_curve`. -/
structure SimCurves where
  curve_one : List CurveNode
  curve_two : List CurveNode
  discount : List CurveNode

/-- The trial node `_swap_value` appends to a copy of a curve's array,
keyed by the leg schedule's last payment date. -/
noncomputable def appendGuessNode (curve : List CurveNode) (sched : List SchedPeriod)
    (nm : String) (pr : ℝ) (guess : ℝ) : List CurveNode :=
  curve ++ [{ maturity := (sched.getLastD default).payment_date,
              timestamp := ((sched.getLastD default).payment_date : ℝ),
              name := nm, par_rate := pr, discount_factor := guess }]

/-- Weekend collapsing by numpy slice assignment (basisswap.py 448-463,
futures.py 309-317): `fridays = first_dates[4-start_day::7]`, then the
Saturday positions `[5-start_day::7]` and Sunday positions
`[6-start_day::7]` are overwritten with `fridays[:len(target)]`.
`fridays` is a live numpy view into the mutated array, so the second
assignment reads the array state left by the first. -/
def basisCollapse (start e : ℤ) : List ℤ :=
  let s := weekday start
  let first0 := arangeDays start e
  let fr1 := pySlice first0 (4 - s) 7
  let first1 := pySliceAssign first0 (5 - s) 7 (fr1.take (pySlice first0 (5 - s) 7).length)
  let fr2 := pySlice first1 (4 - s) 7
  pySliceAssign first1 (6 - s) 7 (fr2.take (pySlice first1 (6 - s) 7).length)

/-- `AverageIndexBasisSwapInstrument.__compound_forward_rate`: the
*mean* of the per-day simple rates `((DF(d)/DF(d+1)) - 1) * 360` over
the weekend-collapsed window (`rates.mean()`). -/
noncomputable def avg_ois_forward_rate (interp : ℝ → ℝ) (p : SchedPeriod) : ℝ :=
  (List.zipWith
      (fun (a b : ℤ) => (Real.exp (interp (a : ℝ)) / Real.exp (interp (b : ℝ)) - 1) * 360)
      (basisCollapse p.accrual_start p.accrual_end)
      ((basisCollapse p.accrual_start p.accrual_end).map (· + 1))).sum
    / (List.zipWith
      (fun (a b : ℤ) => (Real.exp (interp (a : ℝ)) / Real.exp (interp (b : ℝ)) - 1) * 360)
      (basisCollapse p.accrual_start p.accrual_end)
      ((basisCollapse p.accrual_start p.accrual_end).map (· + 1))).length

/-- PV of the OIS leg (leg one) of an `AverageIndexBasisSwapInstrument`
under a 2-vector of trial guesses: per period, cashflow
`(forward + leg_one_spread) * notional * accrual`, discounted by the
shared discount curve at the payment date. -/
noncomputable def avg_leg_one_pv (inst : BasisSwapInst) (st : SimCurves) (guesses : ℝ × ℝ) : ℝ :=
  (inst.leg_one_schedule.map fun p =>
    ((avg_ois_forward_rate
        (Pchip.eval (nodesToPts (appendGuessNode st.curve_one inst.leg_one_schedule
          inst.name inst.leg_one_spread guesses.1))) p
          + inst.leg_one_spread) * inst.notional
        * daycount p.accrual_start p.accrual_end inst.leg_one_basis)
      * Real.exp (Pchip.eval (nodesToPts st.discount) (p.payment_date : ℝ))).sum

/-- PV of the LIBOR leg (leg two): a term rate from two DF lookups per
period.  Note two quirks of the source preserved here: the accrual end
is read from the *leg one* schedule (line 428), and the appended trial
node's par-rate column is stamped with `leg_one_spread` (line 376). -/
noncomputable def avg_leg_two_pv (inst : BasisSwapInst) (st : SimCurves) (guesses : ℝ × ℝ) : ℝ :=
  ((List.range inst.leg_two_schedule.length).map (fun idx =>
    ((Real.exp (Pchip.eval (nodesToPts (appendGuessNode st.curve_two inst.leg_two_schedule
            inst.name inst.leg_one_spread guesses.2))
          (((inst.leg_two_schedule.getD idx default).fixing_date : ℤ) : ℝ))
        / Real.exp (Pchip.eval (nodesToPts (appendGuessNode st.curve_two inst.leg_two_schedule
            inst.name inst.leg_one_spread guesses.2))
          (((inst.leg_two_schedule.getD idx default).fixing_date
              + inst.leg_two_rate_tenor_days : ℤ) : ℝ))
        - 1)
      / daycount (inst.leg_two_schedule.getD idx default).fixing_date
          ((inst.leg_two_schedule.getD idx default).fixing_date + inst.leg_two_rate_tenor_days)
          inst.leg_two_rate_basis
      + inst.leg_two_spread)
    * daycount (inst.leg_two_schedule.getD idx default).accrual_start
        ((inst.leg_one_schedule.getD idx default).accrual_end) inst.leg_two_basis
    * inst.notional
    * Real.exp (Pchip.eval (nodesToPts st.discount)
        (((inst.leg_two_schedule.getD idx default).payment_date : ℤ) : ℝ)))).sum

/-- `AverageIndexBasisSwapInstrument._swap_value` (basisswap.py
321-446): appends the trial guesses to copies of the two curves, values
both legs and returns `ois_leg - libor_leg` — the signed difference. -/
noncomputable def avg_swap_value (inst : BasisSwapInst) (st : SimCurves) (guesses : ℝ × ℝ) : ℝ :=
  avg_leg_one_pv inst st guesses - avg_leg_two_pv inst st guesses

/-- `CompoundIndexBasisSwapInstrument.__compound_forward_rate`: daily
rates `((DF(d)/DF(d+1)) - 1) / accrual_period` compounded as
`(1 + rates).prod() - 1`, where `accrual_period` is the day-count
fraction of the whole period under `rate_basis`. -/
noncomputable def cmp_forward_rate (interp : ℝ → ℝ) (p : SchedPeriod) (rate_basis : String) : ℝ :=
  (List.zipWith
      (fun (a b : ℤ) => 1 + (Real.exp (interp (a : ℝ)) / Real.exp (interp (b : ℝ)) - 1)
        / daycount p.accrual_start p.accrual_end rate_basis)
      (basisCollapse p.accrual_start p.accrual_end)
      ((basisCollapse p.accrual_start p.accrual_end).map (· + 1))).prod - 1

/-- PV of one compounded leg of a `CompoundIndexBasisSwapInstrument`. -/
noncomputable def cmp_leg_pv (sched : List SchedPeriod) (interp dInterp : ℝ → ℝ)
    (spread notional : ℝ) (basis rate_basis : String) : ℝ :=
  (sched.map fun p =>
    ((cmp_forward_rate interp p rate_basis + spread) * notional
        * daycount p.accrual_start p.accrual_end basis)
      * Real.exp (dInterp (p.payment_date : ℝ))).sum

/-- SOFR leg (leg one) of a `CompoundIndexBasisSwapInstrument`; the
appended trial node's par-rate column is `np.float64(0)` here. -/
noncomputable def cmp_leg_one_pv (inst : BasisSwapInst) (st : SimCurves) (guesses : ℝ × ℝ) : ℝ :=
  cmp_leg_pv inst.leg_one_schedule
    (Pchip.eval (nodesToPts (appendGuessNode st.curve_one inst.leg_one_schedule inst.name 0
      guesses.1)))
    (Pchip.eval (nodesToPts st.discount))
    inst.leg_one_spread inst.notional inst.leg_one_basis inst.leg_one_rate_basis

/-- OIS leg (leg two) of a `CompoundIndexBasisSwapInstrument`. -/
noncomputable def cmp_leg_two_pv (inst : BasisSwapInst) (st : SimCurves) (guesses : ℝ × ℝ) : ℝ :=
  cmp_leg_pv inst.leg_two_schedule
    (Pchip.eval (nodesToPts (appendGuessNode st.curve_two inst.leg_two_schedule inst.name 0
      guesses.2)))
    (Pchip.eval (nodesToPts st.discount))
    inst.leg_two_spread inst.notional inst.leg_two_basis inst.leg_two_rate_basis

/-- `CompoundIndexBasisSwapInstrument._swap_value` (basisswap.py
492-609): `sofr_leg - ois_leg`, the signed difference. -/
noncomputable def cmp_swap_value (inst : BasisSwapInst) (st : SimCurves) (guesses : ℝ × ℝ) : ℝ :=
  cmp_leg_one_pv inst st guesses - cmp_leg_two_pv inst st guesses

/-- A one-period schedule: accrual Monday (day 4) to Tuesday (day 5),
fixing Monday, payment Tuesday. -/
def cPeriod : SchedPeriod := ⟨4, 4, 5, 5⟩

/-- A concrete one-period average-index basis swap with
`leg_one_spread = 0` and `leg_two_spread = 3.6`. -/
noncomputable def cInst : BasisSwapInst :=
  ⟨[cPeriod], [cPeriod], 0, 36 / 10, "act360", "act360", "act360", "act360", 1, 100, "X"⟩

/-- Flat zero log-DF curves: one prior node for each projection curve, a
two-node discount curve covering the payment date. -/
noncomputable def cSt : SimCurves :=
  ⟨[⟨0, 0, "NA", 0, 0⟩], [⟨0, 0, "NA", 0, 0⟩], [⟨0, 0, "NA", 0, 0⟩, ⟨5, 5, "D", 0, 0⟩]⟩

theorem cSt_eval_zero (t : ℝ) : Pchip.eval [((0 : ℝ), (0 : ℝ)), (5, 0)] t = 0 :=
  Pchip.eval_of_all_zero _ (by intro p hp; simp at hp; rcases hp with h | h <;> simp [h]) t

/-- C3 counterexample: at the concrete instrument `cInst` over the flat
curves `cSt` with guesses `(0, 0)`, the Average-index `_swap_value`
returns `-1` (leg one is worth 0, leg two 1), not the absolute value
`|PV(leg one) - PV(leg two)| = 1` the claim states. -/
theorem avg_swap_value_not_abs :
    avg_swap_value cInst cSt (0, 0)
      ≠ |avg_leg_one_pv cInst cSt (0, 0) - avg_leg_two_pv cInst cSt (0, 0)| := by
  have hBC : basisCollapse 4 5 = [4] := by decide
  have happ1 : nodesToPts (appendGuessNode cSt.curve_one cInst.leg_one_schedule
      cInst.name cInst.leg_one_spread ((0 : ℝ), (0 : ℝ)).1) = [(0, 0), (5, 0)] := by
    simp [appendGuessNode, nodesToPts, cSt, cInst, cPeriod]
  have happ2 : nodesToPts (appendGuessNode cSt.curve_two cInst.leg_two_schedule
      cInst.name cInst.leg_one_spread ((0 : ℝ), (0 : ℝ)).2) = [(0, 0), (5, 0)] := by
    simp [appendGuessNode, nodesToPts, cSt, cInst, cPeriod]
  have hdisc : nodesToPts cSt.discount = [(0, 0), (5, 0)] := by
    simp [nodesToPts, cSt]
  have hday45 : daycount 4 5 "act360" = 1 / 360 := by
    unfold daycount
    rw [if_pos rfl]
    norm_num
  have hfwd : avg_ois_forward_rate (Pchip.eval [((0 : ℝ), (0 : ℝ)), (5, 0)]) cPeriod = 0 := by
    unfold avg_ois_forward_rate
    rw [show cPeriod.accrual_start = 4 from rfl, show cPeriod.accrual_end = 5 from rfl, hBC]
    simp only [List.map_cons, List.map_nil, List.zipWith_cons_cons, List.zipWith_nil_right]
    push_cast
    rw [cSt_eval_zero 4, cSt_eval_zero 5]
    simp
  have h1 : avg_leg_one_pv cInst cSt (0, 0) = 0 := by
    unfold avg_leg_one_pv
    rw [happ1, hdisc]
    rw [show cInst.leg_one_schedule = [cPeriod] from rfl]
    simp only [List.map_cons, List.map_nil, List.sum_cons, List.sum_nil]
    rw [hfwd]
    rw [show cInst.leg_one_spread = 0 from rfl]
    ring
  have h2 : avg_leg_two_pv cInst cSt (0, 0) = 1 := by
    unfold avg_leg_two_pv
    rw [happ2, hdisc]
    rw [show cInst.leg_two_schedule = [cPeriod] from rfl]
    simp only [List.length_cons, List.length_nil, List.range_succ, List.range_zero,
      List.nil_append, List.map_cons, List.map_nil, List.sum_cons, List.sum_nil,
      List.getD_cons_zero]
    rw [show cInst.leg_one_schedule = [cPeriod] from rfl]
    simp only [List.getD_cons_zero]
    rw [show cPeriod.fixing_date = 4 from rfl, show cPeriod.accrual_start = 4 from rfl,
      show cPeriod.payment_date = 5 from rfl,
      show (cInst.leg_two_rate_tenor_days : ℤ) = 1 from rfl]
    rw [show cPeriod.accrual_end = 5 from rfl]
    rw [show ((4 : ℤ) + 1) = 5 from rfl]
    push_cast
    rw [cSt_eval_zero 4, cSt_eval_zero 5]
    rw [show cInst.leg_two_rate_basis = "act360" from rfl,
      show cInst.leg_two_basis = "act360" from rfl, hday45,
      show cInst.leg_two_spread = (36 : ℝ) / 10 from rfl,
      show cInst.notional = (100 : ℝ) from rfl]
    norm_num
  unfold avg_swap_value
  rw [h1, h2]
  norm_num

/-- C3 (amended): both basis-swap `_swap_value` methods return the
*signed* difference `PV(leg one) - PV(leg two)`:
`AverageIndexBasisSwapInstrument` returns `ois_leg - libor_leg` with no
absolute value (the absolute value exists only in the unused legacy
module `instruments/swaps.py`), and `CompoundIndexBasisSwapInstrument`
returns `sofr_leg - ois_leg`. -/
theorem basis_swap_values_signed (inst : BasisSwapInst) (st : SimCurves) (g : ℝ × ℝ) :
    avg_swap_value inst st g = avg_leg_one_pv inst st g - avg_leg_two_pv inst st g ∧
    cmp_swap_value inst st g = cmp_leg_one_pv inst st g - cmp_leg_two_pv inst st g :=
  ⟨rfl, rfl⟩

/-! ## SimultaneousStrippedCurve.build (curves.py 319-429, C4) -/

/-- The object `scipy.optimize.minimize` returns from
`SimultaneousInstrument.discount_factor()`: a success flag and the
2-vector `x` of solved log-discount-factors. -/
structure OptimizeResult where
  success : Bool
  x : ℝ × ℝ

/-- The face a constituent instrument shows to the simultaneous build
loop: the last payment dates of whichever of the four schedule
attributes it has, the optional `price`/`leg_one_spread` attributes,
`leg_two_spread`, `rate` and `name`. -/
structure SimConstituent where
  leg_one_last_payment : Option ℤ
  leg_two_last_payment : Option ℤ
  fixed_last_payment : Option ℤ
  float_last_payment : Option ℤ
  price : Option ℝ
  leg_one_spread : Option ℝ
  leg_two_spread : ℝ
  rate : ℝ
  name : String

/-- One step of the `last_date` accumulation loop over
`["leg_one_schedule", "leg_two_schedule", "fixed_schedule",
"float_schedule"]`. -/
def lastDateStep (acc : Option ℤ) (m : Option ℤ) : Option ℤ :=
  match m with
  | none => acc
  | some d =>
    match acc with
    | none => some d
    | some l => if d > l then some d else some l

/-- The node key the simultaneous build derives for a constituent: the
latest of its schedules' last payment dates. -/
def constituentLastDate (i : SimConstituent) : Option ℤ :=
  lastDateStep (lastDateStep (lastDateStep (lastDateStep none i.leg_one_last_payment)
    i.leg_two_last_payment) i.fixed_last_payment) i.float_last_payment

/-- The par rate the simultaneous build records (unlike `Curve.build`,
the magnitude comparison here really selects between the two spreads). -/
noncomputable def simRate (i : SimConstituent) : ℝ :=
  match i.price with
  | some p => p
  | none =>
    match i.leg_one_spread with
    | some s1 => if |s1| > |i.leg_two_spread| then s1 else i.leg_two_spread
    | none => i.rate

/-- A `SimultaneousInstrument` as the build loop sees it: its two
constituents and the outcome of the two-variable minimization its
`discount_factor()` runs. -/
structure SimInstrument where
  instrument_one : SimConstituent
  instrument_two : SimConstituent
  df : OptimizeResult

/-- The mutable state of the paired-instrument loop: the two underlying
curves' node arrays and the console output. -/
structure SimState where
  curve_one : List CurveNode
  curve_two : List CurveNode
  output : List String

/-- One iteration of `SimultaneousStrippedCurve.build()`'s loop over the
paired instruments: on success append one node to each underlying curve
(keyed by each constituent's own last payment date, valued by the
corresponding component of `df.x`); on failure print a message and skip. -/
noncomputable def simStep (st : SimState) (inst : SimInstrument) : SimState :=
  if inst.df.success then
    { st with
      curve_one := st.curve_one ++
        [{ maturity := (constituentLastDate inst.instrument_one).getD 0,
           timestamp := ((constituentLastDate inst.instrument_one).getD 0 : ℝ),
           name := inst.instrument_one.name,
           par_rate := simRate inst.instrument_one,
           discount_factor := inst.df.x.1 }],
      curve_two := st.curve_two ++
        [{ maturity := (constituentLastDate inst.instrument_two).getD 0,
           timestamp := ((constituentLastDate inst.instrument_two).getD 0 : ℝ),
           name := inst.instrument_two.name,
           par_rate := simRate inst.instrument_two,
           discount_factor := inst.df.x.2 }] }
  else { st with output := st.output ++ ["Failed to bootstrap instrument"] }

/-- The paired-instrument phase of `SimultaneousStrippedCurve.build()`
(after the two underlying curves have been built on their independent
instruments). -/
noncomputable def simBuild (st : SimState) (insts : List SimInstrument) : SimState :=
  insts.foldl simStep st

/-- C4: during `SimultaneousStrippedCurve.build()`, a paired instrument
whose minimization reports failure prints a message and appends nothing
to either underlying curve; a successful one appends exactly one node to
curve one and one to curve two, keyed by the corresponding constituent's
own last payment date and valued by the corresponding component of the
solution vector. -/
theorem sim_build_step_skip_or_append (st : SimState) (inst : SimInstrument)
    (d1 d2 : ℤ)
    (h1 : constituentLastDate inst.instrument_one = some d1)
    (h2 : constituentLastDate inst.instrument_two = some d2) :
    (inst.df.success = false →
      (simStep st inst).curve_one = st.curve_one ∧
      (simStep st inst).curve_two = st.curve_two ∧
      (simStep st inst).output = st.output ++ ["Failed to bootstrap instrument"]) ∧
    (inst.df.success = true →
      (simStep st inst).curve_one = st.curve_one ++
        [{ maturity := d1, timestamp := (d1 : ℝ), name := inst.instrument_one.name,
           par_rate := simRate inst.instrument_one, discount_factor := inst.df.x.1 }] ∧
      (simStep st inst).curve_two = st.curve_two ++
        [{ maturity := d2, timestamp := (d2 : ℝ), name := inst.instrument_two.name,
           par_rate := simRate inst.instrument_two, discount_factor := inst.df.x.2 }] ∧
      (simStep st inst).output = st.output) ∧
    simBuild st [inst] = simStep st inst := by
  refine ⟨fun hf => ?_, fun hs => ?_, rfl⟩
  · simp [simStep, hf]
  · simp [simStep, hs, h1, h2]

/-- A concrete successful paired instrument. -/
noncomputable def wSimOk : SimInstrument :=
  ⟨⟨some 20, some 21, none, none, none, some (1 / 100), 0, 0, "P"⟩,
   ⟨none, none, some 22, some 19, none, none, 0, 3 / 100, "Q"⟩,
   ⟨true, (-1 / 50, -1 / 40)⟩⟩

/-- A concrete failed paired instrument. -/
noncomputable def wSimFail : SimInstrument :=
  ⟨⟨some 20, none, none, none, none, none, 0, 1 / 100, "P"⟩,
   ⟨none, none, some 22, none, none, none, 0, 3 / 100, "Q"⟩,
   ⟨false, (0, 0)⟩⟩

/-- The initial simultaneous state for the witness. -/
noncomputable def wSimSt : SimState := ⟨[wNode0], [wNode0], []⟩

theorem sim_build_step_skip_or_append_witness :
    ((simStep wSimSt wSimFail).curve_one = wSimSt.curve_one ∧
      (simStep wSimSt wSimFail).curve_two = wSimSt.curve_two ∧
      (simStep wSimSt wSimFail).output
        = wSimSt.output ++ ["Failed to bootstrap instrument"]) ∧
    ((simStep wSimSt wSimOk).curve_one = wSimSt.curve_one ++
        [{ maturity := 21, timestamp := ((21 : ℤ) : ℝ), name := wSimOk.instrument_one.name,
           par_rate := simRate wSimOk.instrument_one, discount_factor := wSimOk.df.x.1 }] ∧
      (simStep wSimSt wSimOk).curve_two = wSimSt.curve_two ++
        [{ maturity := 22, timestamp := ((22 : ℤ) : ℝ), name := wSimOk.instrument_two.name,
           par_rate := simRate wSimOk.instrument_two, discount_factor := wSimOk.df.x.2 }] ∧
      (simStep wSimSt wSimOk).output = wSimSt.output) :=
  ⟨(sim_build_step_skip_or_append wSimSt wSimFail 20 22 (by decide) (by decide)).1 rfl,
   (sim_build_step_skip_or_append wSimSt wSimOk 21 22 (by decide) (by decide)).2.1 rfl⟩

/-! ## Compound futures with historical fixings (futures.py, utils.py, C7) -/

/-- `Fixings.get` with explicit fuel: look the date up in the fixings
dict, falling back to the previous day on a `KeyError`.  Exhausted fuel
models the unbounded recursion of the source. -/
def fixingsGetFuel (m : List (ℤ × ℝ)) : ℕ → ℤ → Option ℝ
  | 0, _ => none
  | f + 1, d =>
    match m.lookup d with
    | some v => some v
    | none => fixingsGetFuel m f (d - 1)

/-- `Fixings.get(date)` for a single date: enough fuel to walk back to
the smallest key; when no fixing on or before the date exists the
Python recursion never terminates, modelled as `none`. -/
def fixingsGet (m : List (ℤ × ℝ)) (d : ℤ) : Option ℝ :=
  fixingsGetFuel m (d + 1 - (m.map Prod.fst).foldr min (d + 1)).toNat d

/-- The compounding tail of
`CompoundFuturesInstrumentByIMMCode.__forward_rate`: realized fixings
spliced ahead of the interpolated daily rates
(`np.append(fixings, rates)`), compounded as `(1 + rates/360).prod() - 1`.
The daily rates run over the weekend-collapsed window from `start` (the
date the fixings loop stopped at) to the maturity. -/
noncomputable def futuresRateFrom (hist : List ℝ) (start maturity : ℤ) (interp : ℝ → ℝ) : ℝ :=
  ((hist ++ List.zipWith
      (fun (a b : ℤ) => (Real.exp (interp (a : ℝ)) / Real.exp (interp (b : ℝ)) - 1) * 360)
      (basisCollapse start maturity)
      ((basisCollapse start maturity).map (· + 1))).map (fun r => 1 + r / 360)).prod - 1

/-- `CompoundFuturesInstrumentByIMMCode.__forward_rate`: when part of
the accrual window precedes the curve date, a missing `Fixings` object
is a fatal error; otherwise one realized fixing per historical day is
collected via `Fixings.get` (whose unterminating fall-back is `none`)
and spliced ahead of the interpolated rates. -/
noncomputable def futures_forward_rate (fixings : Option (List (ℤ × ℝ)))
    (curve_date effective maturity : ℤ) (interp : ℝ → ℝ) : Except String ℝ :=
  if effective < curve_date then
    fixings.elim
      (.error "Fixings object must be supplied when some of the rate fixings for the instrument have been set.")
      (fun m =>
        ((arangeDays effective curve_date).mapM (fixingsGet m)).elim
          (.error "maximum recursion depth exceeded")
          (fun hist => .ok (futuresRateFrom hist curve_date maturity interp)))
  else .ok (futuresRateFrom [] effective maturity interp)

/-- The concrete fixings table of the C7 counterexample: one fixing
three days before the one the instrument needs. -/
noncomputable def wFix : List (ℤ × ℝ) := [((7 : ℤ), (1 : ℝ) / 20)]

/-- C7 counterexample: the instrument needs the day-10 fixing, which is
absent from `wFix`; valuation nevertheless succeeds, splicing in the
stale day-7 fixing, instead of raising a fatal configuration error. -/
theorem futures_missing_fixing_no_error :
    wFix.lookup (10 : ℤ) = none ∧
    futures_forward_rate (some wFix) 11 10 12 (fun _ => 0)
      = .ok ((1 + (1 / 20) / 360) * 1 - 1) := by
  constructor
  · decide
  · have hBC : basisCollapse 11 12 = [11] := by decide
    have hget : fixingsGet wFix 10 = some (1 / 20) := by
      unfold fixingsGet wFix
      norm_num
      rfl
    have hdays : arangeDays 10 11 = [10] := by decide
    have hmapm : ([(10 : ℤ)].mapM (fixingsGet wFix)) = some [1 / 20] := by
      simp [List.mapM, List.mapM.loop, hget]
    unfold futures_forward_rate
    rw [if_pos (by norm_num)]
    simp only [Option.elim_some]
    rw [hdays, hmapm]
    simp only [Option.elim_some]
    unfold futuresRateFrom
    rw [hBC]
    simp only [List.map_cons, List.map_nil, List.zipWith_cons_cons, List.zipWith_nil_right,
      List.cons_append, List.nil_append, List.prod_cons, List.prod_nil]
    norm_num

/-- C7 (amended): if any accrual day precedes the curve date then a
missing `Fixings` object is a fatal error; with a `Fixings` object
supplied, one realized fixing per historical day — the fixing for that
date, or the most recent earlier one when that date's fixing is absent —
is spliced into the compounding in place of the interpolated rate, the
compounded product factoring as (realized factors) × (interpolated
factors). -/
theorem futures_fixings_spliced (fx : List (ℤ × ℝ)) (curve_date effective maturity : ℤ)
    (interp : ℝ → ℝ) (hist : List ℝ)
    (hlt : effective < curve_date)
    (hget : (arangeDays effective curve_date).mapM (fixingsGet fx) = some hist) :
    futures_forward_rate none curve_date effective maturity interp
      = .error "Fixings object must be supplied when some of the rate fixings for the instrument have been set." ∧
    futures_forward_rate (some fx) curve_date effective maturity interp
      = .ok ((hist.map (fun r => 1 + r / 360)).prod
          * ((List.zipWith
              (fun (a b : ℤ) => (Real.exp (interp (a : ℝ)) / Real.exp (interp (b : ℝ)) - 1) * 360)
              (basisCollapse curve_date maturity)
              ((basisCollapse curve_date maturity).map (· + 1))).map
                (fun r => 1 + r / 360)).prod - 1) := by
  constructor
  · unfold futures_forward_rate
    rw [if_pos hlt]
    rfl
  · unfold futures_forward_rate
    rw [if_pos hlt]
    simp only [Option.elim_some]
    rw [hget]
    simp only [Option.elim_some]
    unfold futuresRateFrom
    rw [List.map_append, List.prod_append]

theorem futures_fixings_spliced_witness :
    futures_forward_rate none 11 10 12 (fun _ => 0)
      = .error "Fixings object must be supplied when some of the rate fixings for the instrument have been set." ∧
    futures_forward_rate (some wFix) 11 10 12 (fun _ => 0)
      = .ok ((([(1 : ℝ) / 20]).map (fun r => 1 + r / 360)).prod
          * ((List.zipWith
              (fun (a b : ℤ) => (Real.exp ((fun _ => (0 : ℝ)) (a : ℝ))
                / Real.exp ((fun _ => (0 : ℝ)) (b : ℝ)) - 1) * 360)
              (basisCollapse 11 12)
              ((basisCollapse 11 12).map (· + 1))).map (fun r => 1 + r / 360)).prod - 1) :=
  futures_fixings_spliced wFix 11 10 12 (fun _ => 0) [1 / 20] (by norm_num)
    (by
      have hget : fixingsGet wFix 10 = some (1 / 20) := by
        unfold fixingsGet wFix
        norm_num
        rfl
      have hdays : arangeDays 10 11 = [10] := by decide
      rw [hdays]
      simp [List.mapM, List.mapM.loop, hget])

/-! ## Tenor and calendar-date arithmetic (utils.py, C8) -/

/-- A Gregorian calendar date. -/
structure Date where
  year : ℤ
  month : ℤ
  day : ℤ
deriving DecidableEq

/-- Gregorian leap-year rule. -/
def isLeap (y : ℤ) : Bool := (y % 4 == 0 && y % 100 != 0) || y % 400 == 0

/-- Days in the given month. -/
def daysInMonth (y m : ℤ) : ℤ :=
  if m = 2 then (if isLeap y then 29 else 28)
  else if m = 4 ∨ m = 6 ∨ m = 9 ∨ m = 11 then 30
  else 31

/-- The next calendar day. -/
def succDay (dt : Date) : Date :=
  if dt.day < daysInMonth dt.year dt.month then ⟨dt.year, dt.month, dt.day + 1⟩
  else if dt.month < 12 then ⟨dt.year, dt.month + 1, 1⟩
  else ⟨dt.year + 1, 1, 1⟩

/-- The previous calendar day. -/
def predDay (dt : Date) : Date :=
  if 1 < dt.day then ⟨dt.year, dt.month, dt.day - 1⟩
  else if 1 < dt.month then ⟨dt.year, dt.month - 1, daysInMonth dt.year (dt.month - 1)⟩
  else ⟨dt.year - 1, 12, 31⟩

/-- `dateutil.relativedelta.relativedelta(days=n)` added to a date. -/
def addDays (dt : Date) (n : ℤ) : Date :=
  if 0 ≤ n then succDay^[n.toNat] dt else predDay^[(-n).toNat] dt

/-- `dateutil.relativedelta.relativedelta(months=n)` added to a date:
month arithmetic with the day clamped to the target month's length. -/
def addMonths (dt : Date) (n : ℤ) : Date :=
  ⟨dt.year + (dt.month - 1 + n) / 12, (dt.month - 1 + n) % 12 + 1,
   min dt.day (daysInMonth (dt.year + (dt.month - 1 + n) / 12) ((dt.month - 1 + n) % 12 + 1))⟩

/-- `dateutil.relativedelta.relativedelta(years=n)` added to a date
(day clamped, e.g. 29 February). -/
def addYears (dt : Date) (n : ℤ) : Date :=
  ⟨dt.year + n, dt.month, min dt.day (daysInMonth (dt.year + n) dt.month)⟩

/-- Value of a run of decimal digits. -/
def digitsVal (cs : List Char) : ℤ := cs.foldl (fun a c => 10 * a + ((c.toNat : ℤ) - 48)) 0

/-- First match of `re.findall(r"(-?\d+)", name)`. -/
def firstIntToken : List Char → Option ℤ
  | [] => none
  | c :: rest =>
    if c = '-' ∧ (rest.headD ' ').isDigit = true then
      some (-(digitsVal (rest.takeWhile Char.isDigit)))
    else if c.isDigit then some (digitsVal ((c :: rest).takeWhile Char.isDigit))
    else firstIntToken rest

/-- First match of `re.findall(r"([a-zA-Z]+)", name)`. -/
def firstAlphaToken : List Char → Option (List Char)
  | [] => none
  | c :: rest =>
    if c.isAlpha then some ((c :: rest).takeWhile Char.isAlpha)
    else firstAlphaToken rest

/-- A parsed tenor: the original string, the signed count and the unit
letters. -/
structure Tenor where
  name : String
  num : ℤ
  kind : String
deriving DecidableEq

/-- `Tenor.__init__`: `"ON"` is special-cased to `num = 1, kind = "ON"`;
otherwise the first signed integer token and the first run of letters
are extracted (a string with neither raises IndexError in the source;
junk defaults stand in here). -/
def Tenor.ofString (s : String) : Tenor :=
  if s = "ON" then ⟨s, 1, "ON"⟩
  else ⟨s, (firstIntToken s.data).getD 0, String.mk ((firstAlphaToken s.data).getD [])⟩

/-- `Tenor.__radd__` (`date + tenor`): dispatch on the first letter of
the kind, with `"ON"` meaning one day. -/
def Tenor.radd (t : Tenor) (dt : Date) : Except String Date :=
  if t.kind.data.headD ' ' = 'Y' then .ok (addYears dt t.num)
  else if t.kind.data.headD ' ' = 'M' then .ok (addMonths dt t.num)
  else if t.kind.data.headD ' ' = 'W' then .ok (addDays dt (7 * t.num))
  else if t.kind.data.headD ' ' = 'D' then .ok (addDays dt t.num)
  else if t.kind = "ON" then .ok (addDays dt 1)
  else .error ("Period: " ++ t.kind ++ " not recognized")

/-- `Tenor.__rsub__` (`date - tenor`): as the source compares the
single character `kind[0]` against the two-character string `"ON"`, the
dedicated overnight branch is unreachable and overnight subtraction
falls through to the generic "not recognized" error. -/
def Tenor.rsub (t : Tenor) (dt : Date) : Except String Date :=
  if t.kind.data.headD ' ' = 'Y' then .ok (addYears dt (-t.num))
  else if t.kind.data.headD ' ' = 'M' then .ok (addMonths dt (-t.num))
  else if t.kind.data.headD ' ' = 'W' then .ok (addDays dt (-(7 * t.num)))
  else if t.kind.data.headD ' ' = 'D' then .ok (addDays dt (-t.num))
  else if String.mk [t.kind.data.headD ' '] = "ON" then
    .error "Period: ON not supported for subtraction"
  else .error ("Period: " ++ t.kind ++ " not recognized")

/-- C8: `date + Tenor("ON")` is exactly one calendar day later;
`date - Tenor("ON")` raises an error (overnight subtraction is
undefined — it reaches the "not recognized" branch because the
source's dead comparison of `kind[0]` with `"ON"` never fires); and
`date + Tenor("3M")` advances the date by exactly three calendar
months. -/
theorem tenor_on_and_three_month (dt : Date) :
    (Tenor.ofString "ON").radd dt = .ok (addDays dt 1) ∧
    (Tenor.ofString "ON").rsub dt = .error "Period: ON not recognized" ∧
    (Tenor.ofString "3M").radd dt = .ok (addMonths dt 3) := by
  have hon : Tenor.ofString "ON" = ⟨"ON", 1, "ON"⟩ := by decide
  have h3m : Tenor.ofString "3M" = ⟨"3M", 3, "M"⟩ := by decide
  refine ⟨?_, ?_, ?_⟩
  · rw [hon]
    rfl
  · rw [hon]
    rfl
  · rw [h3m]
    rfl

end QB
